import Mathlib

/-!
Shallow embedding of the UniversalMediaDownloader platform-dispatch layer
(`src/downloaders/`): the data model (`DownloadConfig`, `DownloadProgress`),
the downloader registry and URL routing of `DownloadManager`
(`src/downloaders/manager.py`), the per-platform option builders
(`youtube.py`, `twitter.py`, `instagram.py`), the generic download wrapper
and its engine hooks (`base.py`), and the bespoke Audiomack pipeline
(`audiomack.py`).

Modelling conventions:
* Python strings are Lean `String`s; slicing `s[:n]` is `take` on the
  code-point list, and Python's substring test `a in b` is `List.isInfixOf`
  on the code-point lists.
* Python floats (progress percentages) are modelled as exact rationals `ℚ`;
  the claims under study concern the arithmetic formulas, not IEEE rounding.
* Environment-dependent effects (the extraction engine, the browser session,
  the filesystem, the transcoding tool) are passed in explicitly as data:
  an `EngineRun` value for the generic path, an `AmEnv` record for the
  Audiomack path.  The code's lazily cached FFmpeg probe becomes a boolean
  parameter.
-/

set_option maxHeartbeats 1000000

namespace UMD

/-- Python `str.lower` restricted to ASCII case mapping, applied per
code point (`url.lower()` in `BaseDownloader.can_handle`). -/
def lowerStr (s : String) : String := String.mk (s.data.map Char.toLower)

/-- Whether `a` is a leading block of `b` (code-point lists). -/
def leadsChars : List Char → List Char → Bool
  | [], _ => true
  | _ :: _, [] => false
  | c :: cs, d :: ds => c == d && leadsChars cs ds

/-- Whether `a` occurs contiguously inside `b` (code-point lists). -/
def subChars : List Char → List Char → Bool
  | a, [] => a.isEmpty
  | a, d :: ds => leadsChars a (d :: ds) || subChars a ds

/-- Python's substring test `a in b`. -/
def substrOf (a b : String) : Bool := subChars a.data b.data

/-- Models `OutputFormat` enum from `src/downloaders/base.py`. -/
inductive OutputFormat where
  | VIDEO
  | AUDIO
deriving DecidableEq

/-- Models `DownloadConfig` dataclass from `src/downloaders/base.py`. -/
structure DownloadConfig where
  url : String
  output_dir : String
  output_format : OutputFormat := OutputFormat.VIDEO
  cookies_file : Option String := none
  ffmpeg_path : Option String := none
deriving DecidableEq

/-- Models `DownloadProgress` dataclass from `src/downloaders/base.py`; `percent`
is a Python float, modelled as an exact rational. -/
structure DownloadProgress where
  percent : ℚ := 0
  speed : String := ""
  eta : String := ""
  status : String := "idle"
  message : String := ""
deriving DecidableEq

/-- A registry entry: the class-level data of one `BaseDownloader` subclass
(its `PLATFORM_NAME` and `SUPPORTED_DOMAINS`). -/
structure DownloaderClass where
  PLATFORM_NAME : String
  SUPPORTED_DOMAINS : List String
deriving DecidableEq

/-- Models `YouTubeDownloader` class data (`src/downloaders/youtube.py`). -/
def youtubeClass : DownloaderClass :=
  { PLATFORM_NAME := "YouTube"
    SUPPORTED_DOMAINS :=
      ["youtube.com", "youtu.be", "youtube-nocookie.com", "music.youtube.com"] }

/-- Models `TwitterDownloader` class data (`src/downloaders/twitter.py`). -/
def twitterClass : DownloaderClass :=
  { PLATFORM_NAME := "X (Twitter)"
    SUPPORTED_DOMAINS := ["twitter.com", "x.com", "mobile.twitter.com", "mobile.x.com"] }

/-- Models `InstagramDownloader` class data (`src/downloaders/instagram.py`). -/
def instagramClass : DownloaderClass :=
  { PLATFORM_NAME := "Instagram"
    SUPPORTED_DOMAINS := ["instagram.com", "www.instagram.com", "instagr.am"] }

/-- Models `AudiomackDownloader` class data (`src/downloaders/audiomack.py`). -/
def audiomackClass : DownloaderClass :=
  { PLATFORM_NAME := "Audiomack"
    SUPPORTED_DOMAINS := ["audiomack.com", "www.audiomack.com"] }

/-- The fixed registry `DOWNLOADERS` from `src/downloaders/manager.py`,
in declaration order. -/
def DOWNLOADERS : List DownloaderClass :=
  [youtubeClass, twitterClass, instagramClass, audiomackClass]

/-- Models `BaseDownloader.can_handle`: some declared domain is a substring of the
lowercased URL. -/
def canHandle (d : DownloaderClass) (url : String) : Bool :=
  d.SUPPORTED_DOMAINS.any (fun dom => substrOf dom (lowerStr url))

/-- Models `DownloadManager.detect_platform`: first registry entry that can handle
the URL wins; sentinel `"Desconocida"` when none can. -/
def detect_platform (url : String) : String :=
  match DOWNLOADERS.find? (fun d => canHandle d url) with
  | some d => d.PLATFORM_NAME
  | none => "Desconocida"

/-- The platform display names in registry order
(`DownloadManager.get_supported_platforms`). -/
def platformNames : List String := DOWNLOADERS.map (·.PLATFORM_NAME)

/-- The `ValueError` message raised by `DownloadManager._get_downloader`
when no registered downloader matches the URL. -/
def unsupportedMsg : String :=
  "URL no soportada. Plataformas disponibles: " ++ String.intercalate ", " platformNames

/-- Models `DownloadManager.download`: resolve the downloader by the same
first-match rule as `detect_platform` and delegate; raise (here: return
`Except.error`) the enumerating message when no downloader matches.  The
behaviour of each downloader's `download` is passed in as `impl`, so that
theorems quantifying over `impl` express that no downloader is invoked on
the failure path. -/
def manager_download {α : Type} (impl : DownloaderClass → DownloadConfig → Except String α)
    (config : DownloadConfig) : Except String α :=
  match DOWNLOADERS.find? (fun d => canHandle d config.url) with
  | some d => impl d config
  | none => Except.error unsupportedMsg

/-- Python's `\s` / `str.strip` whitespace class, ASCII part
(space, tab, newline, carriage return, vertical tab, form feed). -/
def pyWs (c : Char) : Bool :=
  c == ' ' || c == '\t' || c == '\n' || c == '\r' || c == '\x0b' || c == '\x0c'

/-- Models `text.replace('\n', ' ').replace('\r', ' ')` applied per code point. -/
def nlToSpace (c : Char) : Char := if c == '\n' || c == '\r' then ' ' else c

/-- The characters the sanitizer's character class `[<>:"/\\|?*]` strips. -/
def isBadFileChar (c : Char) : Bool :=
  c == '<' || c == '>' || c == ':' || c == '"' || c == '/' || c == '\\' ||
    c == '|' || c == '?' || c == '*'

/-- Models `re.sub(r'[<>:"/\\|?*]', '_', text)` applied per code point. -/
def badToUnderscore (c : Char) : Char := if isBadFileChar c then '_' else c

/-- Models `re.sub(r'\s+', ' ', text)` one code point at a time: `prevWs` records
whether the current position sits inside a whitespace run whose single
replacement space was already emitted. -/
def collapseWsAux (prevWs : Bool) : List Char → List Char
  | [] => []
  | c :: rest =>
    if pyWs c then
      if prevWs then collapseWsAux true rest
      else ' ' :: collapseWsAux true rest
    else c :: collapseWsAux false rest

/-- Models `re.sub(r'\s+', ' ', text)`: replace each maximal whitespace run with a
single space. -/
def collapseWs (l : List Char) : List Char := collapseWsAux false l

/-- Models `.strip()`: drop leading and trailing whitespace. -/
def stripWs (l : List Char) : List Char :=
  ((l.dropWhile (fun c => pyWs c)).reverse.dropWhile (fun c => pyWs c)).reverse

/-- The local `clean` helper in `AudiomackDownloader.download`, on code-point
lists: collapse line breaks to spaces, replace filename-illegal characters
with underscores, collapse whitespace runs, strip the ends. -/
def cleanChars (l : List Char) : List Char :=
  stripWs (collapseWs ((l.map nlToSpace).map badToUnderscore))

/-- The `clean` helper on strings. -/
def cleanStr (s : String) : String := String.mk (cleanChars s.data)

/-- Python slicing `s[:n]` on a string (code-point count). -/
def pySlice (s : String) (n : Nat) : String := String.mk (s.data.take n)

/-- Invariant relation on adjacent sanitized characters: never two
whitespace characters in a row. -/
def noWsPair (a b : Char) : Prop := ¬(pyWs a = true ∧ pyWs b = true)

/-- One post-processor dict as written in the option builders
(`{"key": ..., "preferredcodec": ..., "preferredquality": ...}`). -/
structure PPDict where
  key : String
  preferredcodec : Option String := none
  preferredquality : Option String := none
deriving DecidableEq

/-- The audio-extraction post-processor shared by the generic builders. -/
def extractAudioMp3 : PPDict :=
  { key := "FFmpegExtractAudio", preferredcodec := some "mp3", preferredquality := some "192" }

/-- The keys a `_get_platform_options` dict can carry (Instagram's nested
`extractor_args.instagram.skip` list is flattened to one field). -/
structure PlatformOpts where
  format : Option String := none
  postprocessors : List PPDict := []
  merge_output_format : Option String := none
  age_limit : Option Nat := none
  nocheckcertificate : Option Bool := none
  extractor_skip : List String := []
deriving DecidableEq

/-- Models `YouTubeDownloader._get_platform_options`; the lazily probed
`self._has_ffmpeg()` is the explicit parameter `hasFFmpeg`. -/
def youtube_platform_options (hasFFmpeg : Bool) (config : DownloadConfig) : PlatformOpts :=
  let opts : PlatformOpts := { age_limit := some 0, nocheckcertificate := some true }
  if config.output_format = OutputFormat.AUDIO then
    { opts with
      format := some "bestaudio/best"
      postprocessors := [extractAudioMp3, { key := "FFmpegMetadata" }] }
  else if hasFFmpeg then
    { opts with format := some "bestvideo+bestaudio/best", merge_output_format := some "mp4" }
  else
    { opts with format := some "best" }

/-- Models `TwitterDownloader._get_platform_options`. -/
def twitter_platform_options (hasFFmpeg : Bool) (config : DownloadConfig) : PlatformOpts :=
  let opts : PlatformOpts := {}
  if config.output_format = OutputFormat.AUDIO then
    { opts with format := some "bestaudio/best", postprocessors := [extractAudioMp3] }
  else if hasFFmpeg then
    { opts with format := some "bestvideo+bestaudio/best", merge_output_format := some "mp4" }
  else
    { opts with format := some "best" }

/-- Models `InstagramDownloader._get_platform_options`. -/
def instagram_platform_options (hasFFmpeg : Bool) (config : DownloadConfig) : PlatformOpts :=
  let opts : PlatformOpts := { extractor_skip := ["dash"] }
  if config.output_format = OutputFormat.AUDIO then
    { opts with format := some "bestaudio/best", postprocessors := [extractAudioMp3] }
  else if hasFFmpeg then
    { opts with format := some "bestvideo+bestaudio/best", merge_output_format := some "mp4" }
  else
    { opts with format := some "best" }

/-- The fields of the dict `d` a yt-dlp progress-hook call carries, as read
by `BaseDownloader._create_progress_hook` (`d.get(...)`). -/
structure HookInput where
  status : String := ""
  total_bytes : Option Nat := none
  total_bytes_estimate : Option Nat := none
  downloaded_bytes : Option Nat := none
  speed_str : String := ""
  eta_str : String := ""

/-- Python's `a or b` for an optional number: `a` wins when it is present
and truthy (non-zero). -/
def orFalsy (a : Option Nat) (b : Nat) : Nat :=
  match a with
  | some n => if n = 0 then b else n
  | none => b

/-- Models `d.get("total_bytes") or d.get("total_bytes_estimate") or 0`. -/
def hookTotal (d : HookInput) : Nat := orFalsy d.total_bytes (orFalsy d.total_bytes_estimate 0)

/-- Models `d.get("downloaded_bytes", 0)`. -/
def hookDownloaded (d : HookInput) : Nat := d.downloaded_bytes.getD 0

/-- Models `.strip()` on strings. -/
def pyStrip (s : String) : String := String.mk (stripWs s.data)

/-- Render of the f-string `f"Descargando… {percent:.1f}%"`: the claims
under study never constrain this display text, so the float `.1f` rounding
is rendered as the rational rounded to one decimal. -/
def downloadingMsg (percent : ℚ) : String :=
  let tenths : ℤ := ⌊percent * 10 + 1 / 2⌋
  "Descargando… " ++ toString (tenths / 10) ++ "." ++ toString (tenths % 10) ++ "%"

/-- Models `percent = (downloaded * 100 / total) if total > 0 else 0` in the
progress hook. -/
def hookPercent (d : HookInput) : ℚ :=
  if 0 < hookTotal d then (hookDownloaded d : ℚ) * 100 / (hookTotal d : ℚ) else 0

/-- Models `BaseDownloader._create_progress_hook`'s hook body: `none` models a call
whose status triggers no branch (no progress event emitted). -/
def progress_hook (d : HookInput) : Option DownloadProgress :=
  if d.status = "downloading" then
    some { percent := hookPercent d, speed := pyStrip d.speed_str, eta := pyStrip d.eta_str,
           status := "downloading", message := downloadingMsg (hookPercent d) }
  else if d.status = "finished" then
    some { percent := 95, status := "processing", message := "Procesando archivo…" }
  else if d.status = "error" then
    some { status := "error", message := "Error en la descarga" }
  else none

/-- The fields of the dict a yt-dlp postprocessor-hook call carries, as read
by `BaseDownloader._create_postprocessor_hook`. -/
structure PPHookInput where
  status : String := ""
  postprocessor : String := ""

/-- Models `BaseDownloader._create_postprocessor_hook`'s hook body. -/
def pp_hook (d : PPHookInput) : Option DownloadProgress :=
  if d.status = "started" then
    some { percent := 97, status := "processing",
           message :=
             if substrOf "ExtractAudio" d.postprocessor then "Extrayendo audio…"
             else if substrOf "Metadata" d.postprocessor then "Añadiendo metadatos…"
             else "Procesando…" }
  else if d.status = "finished" then
    some { percent := 99, status := "processing", message := "Finalizando…" }
  else none

/-- One run of the extraction engine (`ydl.extract_info`) as observed by
`BaseDownloader.download`: the progress events its registered hooks emitted,
and its outcome (info dict, or the raised exception's text). -/
structure EngineRun (α : Type) where
  events : List DownloadProgress
  result : Except String α

/-- The fixed event emitted at the top of `BaseDownloader.download`. -/
def startEvent : DownloadProgress :=
  { status := "downloading", message := "Iniciando descarga…" }

/-- The error event emitted in `BaseDownloader.download`'s `except` block. -/
def errEvent (e : String) : DownloadProgress :=
  { status := "error", message := "Error: " ++ e }

/-- Models `BaseDownloader.download` (generic path): emit the start event, run the
engine (whose hooks emit `engine.events`), then either emit the final
100%-finished event and return the info, or emit the error event and
re-raise the same failure.  `titleOf` models `info.get("title", "archivo")`. -/
def base_download {α : Type} (titleOf : α → String) (engine : EngineRun α) :
    List DownloadProgress × Except String α :=
  match engine.result with
  | Except.ok info =>
    (startEvent :: engine.events ++
        [{ percent := 100, status := "finished",
           message := "Descarga completa: " ++ titleOf info }],
      Except.ok info)
  | Except.error e =>
    (startEvent :: engine.events ++ [errEvent e], Except.error e)

/-- One parseable performance-log entry as read by
`AudiomackDownloader._extract_streaming_url`: the CDP message method and the
`params.request.url` field (entries that fail to parse are skipped by the
code's `except: continue` and are not modelled). -/
structure LogEntry where
  method : String
  requestUrl : String
deriving DecidableEq

/-- The scan condition: a `Network.requestWillBeSent` message whose request
URL contains the streaming host marker `music.audiomack.com`. -/
def isStreamEntry (e : LogEntry) : Bool :=
  e.method == "Network.requestWillBeSent" && substrOf "music.audiomack.com" e.requestUrl

/-- The streaming-URL scan in `_extract_streaming_url`: first matching entry
in log order wins (the loop `break`s at the first match). -/
def scan_streaming_url (logs : List LogEntry) : Option String :=
  (logs.find? isStreamEntry).map (·.requestUrl)

/-- Metadata as produced by the URL-pattern match and best-effort heading
refinement inside `_extract_streaming_url`; the derivation itself is
browser-dependent and is carried in the environment. -/
structure AmMetadata where
  title : String
  artist : String
  id : String
deriving DecidableEq

/-- The environment one `AudiomackDownloader.download` run observes: the
captured network log, the metadata the browser session produced, the HTTP
response's declared content length and the chunk sizes read, the lazily
cached FFmpeg probe (`self._has_ffmpeg()`, independent of the config), and
whether the expected mp3 file exists after the transcode attempt. -/
structure AmEnv where
  logs : List LogEntry
  metadata : AmMetadata
  contentLength : Nat
  chunks : List Nat
  hasFFmpeg : Bool
  mp3Exists : Bool

/-- The result dict returned by `AudiomackDownloader.download`. -/
structure AmResult where
  title : String
  artist : String
  id : String
  filepath : String
deriving DecidableEq

deriving instance DecidableEq for Except

/-- Observable outcome of one Audiomack run: emitted progress events, files
removed (`os.remove`), and the returned dict or raised failure text. -/
structure AmOutcome where
  events : List DownloadProgress
  removed : List String
  result : Except String AmResult
deriving DecidableEq

/-- The progress event the `_download_file` loop emits after a chunk, once
`downloaded` bytes of a declared `total` have been written. -/
def amLoopProgress (downloaded total : Nat) : DownloadProgress :=
  { percent := 60 + ((downloaded : ℚ) / (total : ℚ)) * 35,
    status := "downloading",
    message := "Descargando... " ++ toString (downloaded / 1024) ++ " KB / " ++
      toString (total / 1024) ++ " KB" }

/-- All events the `_download_file` loop emits for a given declared content
length and chunk-size sequence (one event per chunk, only when a positive
total is known). -/
def amLoopEvents (total : Nat) : List Nat → Nat → List DownloadProgress
  | [], _ => []
  | c :: rest, downloaded =>
    (if 0 < total then [amLoopProgress (downloaded + c) total] else []) ++
      amLoopEvents total rest (downloaded + c)

/-- Models `os.path.join` (POSIX separator). -/
def joinPath (a b : String) : String :=
  if a = "" then b
  else if (match a.data.getLast? with | some c => c == '/' | none => false) then a ++ b
  else a ++ "/" ++ b

/-- Models `s.rsplit('.', 1)[0]`: everything before the last dot (the whole string
when no dot occurs). -/
def beforeLastDot (s : String) : String :=
  if s.data.contains '.' then
    String.mk (((s.data.reverse.dropWhile (fun c => c != '.')).drop 1).reverse)
  else s

/-- Models `metadata["title"] = clean(metadata["title"])[:100]`. -/
def am_title (env : AmEnv) : String := pySlice (cleanStr env.metadata.title) 100

/-- Models `metadata["artist"] = clean(metadata["artist"])[:50]`. -/
def am_artist (env : AmEnv) : String := pySlice (cleanStr env.metadata.artist) 50

/-- Models `ext = "m4a" if ".m4a" in streaming_url else "mp3"`. -/
def am_ext (surl : String) : String := if substrOf ".m4a" surl then "m4a" else "mp3"

/-- Models `f"{artist} - {title} [{id}].{ext}"`. -/
def am_filename (env : AmEnv) (surl : String) : String :=
  am_artist env ++ " - " ++ am_title env ++ " [" ++ env.metadata.id ++ "]." ++ am_ext surl

/-- Models `dest_path = os.path.join(config.output_dir, filename)`. -/
def am_dest (env : AmEnv) (config : DownloadConfig) (surl : String) : String :=
  joinPath config.output_dir (am_filename env surl)

/-- Models `mp3_path = dest_path.rsplit('.', 1)[0] + '.mp3'`. -/
def am_mp3_path (env : AmEnv) (config : DownloadConfig) (surl : String) : String :=
  beforeLastDot (am_dest env config surl) ++ ".mp3"

/-- The fixed progress events `_extract_streaming_url` emits while driving
the browser, in order. -/
def extractionEvents : List DownloadProgress :=
  [{ percent := 10, status := "downloading", message := "Cargando página..." },
   { percent := 15, status := "downloading", message := "Cerrando popups..." },
   { percent := 25, status := "downloading", message := "Iniciando reproducción..." },
   { percent := 35, status := "downloading", message := "Esperando carga de audio..." },
   { percent := 50, status := "downloading", message := "Buscando URL de audio..." }]

/-- The final 100%-finished event of the Audiomack path. -/
def amFinalEvent (title : String) : DownloadProgress :=
  { percent := 100, status := "finished", message := "Descarga completa: " ++ title }

/-- Models `AudiomackDownloader.download`: browser-driven extraction (events plus
log scan), explicit failure when no streaming URL was captured, metadata
sanitization, destination naming, the chunked HTTP download, the
conditional fail-open transcode to mp3, and the result dict.  Only
`config.output_dir` and `config.output_format` are consulted; the FFmpeg
probe is the downloader's own cached one, carried in `env`. -/
def audiomack_download (env : AmEnv) (config : DownloadConfig) : AmOutcome :=
  let ev0 := { status := "downloading", message := "Iniciando descarga de Audiomack..." } ::
    extractionEvents
  match scan_streaming_url env.logs with
  | none =>
    { events := ev0, removed := [],
      result := Except.error "No se pudo obtener la URL de streaming." }
  | some surl =>
    let title := am_title env
    let ev1 := ev0 ++
      [{ percent := 55, status := "downloading", message := "Descargando: " ++ title }]
    let dest := am_dest env config surl
    let ev2 := ev1 ++ amLoopEvents env.contentLength env.chunks 0
    if config.output_format = OutputFormat.AUDIO ∧ am_ext surl = "m4a" ∧ env.hasFFmpeg = true then
      let ev3 := ev2 ++
        [{ percent := 96, status := "processing", message := "Convirtiendo a MP3..." }]
      if env.mp3Exists then
        { events := ev3 ++ [amFinalEvent title], removed := [dest],
          result := Except.ok
            { title := title, artist := am_artist env, id := env.metadata.id,
              filepath := am_mp3_path env config surl } }
      else
        { events := ev3 ++ [amFinalEvent title], removed := [],
          result := Except.ok
            { title := title, artist := am_artist env, id := env.metadata.id,
              filepath := dest } }
    else
      { events := ev2 ++ [amFinalEvent title], removed := [],
        result := Except.ok
          { title := title, artist := am_artist env, id := env.metadata.id,
            filepath := dest } }

/-- The status strings the progress contract allows. -/
def validStatus (s : String) : Bool :=
  ["idle", "downloading", "processing", "finished", "error"].contains s

/-- Helper: `find?` returns the element at the first index satisfying the
predicate. -/
theorem find?_first {α : Type} (p : α → Bool) :
    ∀ (l : List α) (i : Nat) (h : i < l.length), p (l.get ⟨i, h⟩) = true →
      (∀ j (hj : j < i), p (l.get ⟨j, Nat.lt_trans hj h⟩) = false) →
      l.find? p = some (l.get ⟨i, h⟩) := by
  intro l
  induction l with
  | nil => intro i h; exact absurd h (Nat.not_lt_zero i)
  | cons a t ih =>
    intro i h hp hfirst
    cases i with
    | zero =>
      simp only [List.get] at hp
      simp [List.find?, hp]
    | succ n =>
      have ha : p a = false := hfirst 0 (Nat.succ_pos n)
      simp only [List.find?, ha]
      exact ih n (Nat.lt_of_succ_lt_succ h) hp
        (fun j hj => hfirst (j + 1) (Nat.succ_lt_succ hj))

/-- C1: `detect_platform` resolves by first match over the fixed registry
order (YouTube, X/Twitter, Instagram, Audiomack): when entry `i` is the
first whose domain list matches the lowercased URL as a substring,
`detect_platform` returns that entry's `PLATFORM_NAME`; when no entry
matches, it returns the sentinel `"Desconocida"`; and the registry order is
exactly the declared one, so declaration order alone breaks ties. -/
theorem C1_detect_platform_first_match (url : String) :
    (∀ i (h : i < DOWNLOADERS.length), canHandle (DOWNLOADERS.get ⟨i, h⟩) url = true →
      (∀ j (hj : j < i), canHandle (DOWNLOADERS.get ⟨j, Nat.lt_trans hj h⟩) url = false) →
      detect_platform url = (DOWNLOADERS.get ⟨i, h⟩).PLATFORM_NAME)
    ∧ ((∀ d ∈ DOWNLOADERS, canHandle d url = false) → detect_platform url = "Desconocida")
    ∧ DOWNLOADERS.map (·.PLATFORM_NAME) = ["YouTube", "X (Twitter)", "Instagram", "Audiomack"] := by
  refine ⟨?_, ?_, by decide⟩
  · intro i h hp hfirst
    unfold detect_platform
    rw [find?_first (fun d => canHandle d url) DOWNLOADERS i h hp hfirst]
  · intro hnone
    unfold detect_platform
    rw [List.find?_eq_none.mpr (by simpa using hnone)]

/-- Witness for C1: a YouTube URL (first registry entry) is detected. -/
theorem C1_witness :
    detect_platform "https://youtu.be/abc123" = "YouTube" :=
  (C1_detect_platform_first_match "https://youtu.be/abc123").1 0 (by decide)
    (by decide) (fun j hj => absurd hj (Nat.not_lt_zero j))

/-- C2: for every config, each generic platform option builder yields, for
AUDIO, format `"bestaudio/best"` with the `FFmpegExtractAudio`/mp3/"192"
post-processor (YouTube additionally appending `FFmpegMetadata`); for VIDEO
with a transcoding tool, format `"bestvideo+bestaudio/best"` merged to
`"mp4"`; for VIDEO without the tool, format `"best"` with no merge. -/
theorem C2_platform_options_policy (hasFFmpeg : Bool) (config : DownloadConfig) :
    (config.output_format = OutputFormat.AUDIO →
      (youtube_platform_options hasFFmpeg config).format = some "bestaudio/best" ∧
      (youtube_platform_options hasFFmpeg config).postprocessors =
        [extractAudioMp3, { key := "FFmpegMetadata" }] ∧
      (twitter_platform_options hasFFmpeg config).format = some "bestaudio/best" ∧
      (twitter_platform_options hasFFmpeg config).postprocessors = [extractAudioMp3] ∧
      (instagram_platform_options hasFFmpeg config).format = some "bestaudio/best" ∧
      (instagram_platform_options hasFFmpeg config).postprocessors = [extractAudioMp3])
    ∧ (config.output_format = OutputFormat.VIDEO → hasFFmpeg = true →
      (youtube_platform_options hasFFmpeg config).format = some "bestvideo+bestaudio/best" ∧
      (youtube_platform_options hasFFmpeg config).merge_output_format = some "mp4" ∧
      (twitter_platform_options hasFFmpeg config).format = some "bestvideo+bestaudio/best" ∧
      (twitter_platform_options hasFFmpeg config).merge_output_format = some "mp4" ∧
      (instagram_platform_options hasFFmpeg config).format = some "bestvideo+bestaudio/best" ∧
      (instagram_platform_options hasFFmpeg config).merge_output_format = some "mp4")
    ∧ (config.output_format = OutputFormat.VIDEO → hasFFmpeg = false →
      (youtube_platform_options hasFFmpeg config).format = some "best" ∧
      (youtube_platform_options hasFFmpeg config).merge_output_format = none ∧
      (twitter_platform_options hasFFmpeg config).format = some "best" ∧
      (twitter_platform_options hasFFmpeg config).merge_output_format = none ∧
      (instagram_platform_options hasFFmpeg config).format = some "best" ∧
      (instagram_platform_options hasFFmpeg config).merge_output_format = none) := by
  cases hfmt : config.output_format <;> cases hasFFmpeg <;>
    simp [youtube_platform_options, twitter_platform_options, instagram_platform_options, hfmt]

/-- Witness for C2: on an AUDIO config, YouTube's builder selects the audio
format and both post-processors. -/
theorem C2_witness :
    (youtube_platform_options true
        { url := "u", output_dir := "o", output_format := OutputFormat.AUDIO }).format =
      some "bestaudio/best" :=
  ((C2_platform_options_policy true
      { url := "u", output_dir := "o", output_format := OutputFormat.AUDIO }).1 rfl).1

/-- C3: when no registered downloader's domains match the config's URL,
`DownloadManager.download` fails with the fixed message — independently of
every downloader implementation `impl`, so no downloader's `download` is
invoked — and that message contains every registered platform display name;
when some entry matches, `download` delegates to the first matching entry
and returns its result unchanged. -/
theorem C3_manager_download_dispatch {α : Type}
    (impl : DownloaderClass → DownloadConfig → Except String α) (config : DownloadConfig) :
    ((∀ d ∈ DOWNLOADERS, canHandle d config.url = false) →
      manager_download impl config = Except.error unsupportedMsg ∧
      (∀ n ∈ platformNames, substrOf n unsupportedMsg = true))
    ∧ (∀ i (h : i < DOWNLOADERS.length), canHandle (DOWNLOADERS.get ⟨i, h⟩) config.url = true →
      (∀ j (hj : j < i), canHandle (DOWNLOADERS.get ⟨j, Nat.lt_trans hj h⟩) config.url = false) →
      manager_download impl config = impl (DOWNLOADERS.get ⟨i, h⟩) config) := by
  constructor
  · intro hnone
    refine ⟨?_, by decide⟩
    unfold manager_download
    rw [List.find?_eq_none.mpr (by simpa using hnone)]
  · intro i h hp hfirst
    unfold manager_download
    rw [find?_first (fun d => canHandle d config.url) DOWNLOADERS i h hp hfirst]

/-- Witness for C3: a URL no registry entry matches makes `download` fail
with the enumerating message, with every platform name a substring of it. -/
theorem C3_witness :
    manager_download (fun _ _ => (Except.ok 0 : Except String Nat))
        { url := "https://example.org/file", output_dir := "out" } =
      Except.error unsupportedMsg ∧
    substrOf "Audiomack" unsupportedMsg = true := by
  have h := (C3_manager_download_dispatch (fun _ _ => (Except.ok 0 : Except String Nat))
    { url := "https://example.org/file", output_dir := "out" }).1 (by decide)
  exact ⟨h.1, h.2 "Audiomack" (by decide)⟩

/-- C4: whenever the engine run fails with text `e`, `BaseDownloader.download`
the wrapper re-raises the same failure, its full event list is the start
event, the engine's own hook events, and one final error event carrying the
failure text — and when the engine's hook events contain no error-status
event, the error-status events of the whole run are exactly that one event. -/
theorem C4_error_reported_once_and_reraised {α : Type} (titleOf : α → String)
    (engine : EngineRun α) (e : String) (herr : engine.result = Except.error e) :
    (base_download titleOf engine).2 = Except.error e ∧
    (base_download titleOf engine).1 = startEvent :: engine.events ++ [errEvent e] ∧
    (errEvent e).message = "Error: " ++ e ∧
    ((∀ p ∈ engine.events, p.status ≠ "error") →
      (base_download titleOf engine).1.filter (fun p => p.status == "error") = [errEvent e]) := by
  obtain ⟨evs, res⟩ := engine
  simp only at herr
  subst herr
  refine ⟨rfl, rfl, rfl, ?_⟩
  intro hne
  simp only [base_download, List.filter_cons, List.filter_append]
  have hs : (startEvent.status == "error") = false := by decide
  have he : ((errEvent e).status == "error") = true := by
    simp [errEvent]
  rw [hs, he]
  simp only [List.filter, cond_false]
  rw [List.filter_eq_nil_iff.mpr (fun p hp => by simpa using hne p hp)]
  simp

/-- Witness for C4: a concrete failed engine run re-raises and reports the
failure exactly once. -/
theorem C4_witness :
    (base_download (fun t : String => t)
        { events := [{ percent := 50, status := "downloading", message := "m" }],
          result := Except.error "boom" }).2 = Except.error "boom" :=
  (C4_error_reported_once_and_reraised (fun t : String => t)
    { events := [{ percent := 50, status := "downloading", message := "m" }],
      result := Except.error "boom" } "boom" rfl).1

/-- C8: the progress-hook wrapper maps engine events as the code does:
"downloading" to a downloading event at `downloaded*100/total` (0 when no
positive total is known), "finished" to the fixed 95%-processing event,
"error" to an error event with the generic message and default (no) percent;
the postprocessor hook maps "started" to a fixed 97%-processing event whose
message is selected by the running post-processor's name, and "finished" to
the fixed 99% event. -/
theorem C8_hook_event_mapping (d : HookInput) (pd : PPHookInput) :
    (d.status = "downloading" →
      progress_hook d = some
        { percent := hookPercent d, speed := pyStrip d.speed_str, eta := pyStrip d.eta_str,
          status := "downloading", message := downloadingMsg (hookPercent d) } ∧
      (0 < hookTotal d →
        hookPercent d = (hookDownloaded d : ℚ) * 100 / (hookTotal d : ℚ)) ∧
      (hookTotal d = 0 → hookPercent d = 0))
    ∧ (d.status = "finished" →
      progress_hook d = some
        { percent := 95, status := "processing", message := "Procesando archivo…" })
    ∧ (d.status = "error" →
      progress_hook d = some
        { percent := 0, status := "error", message := "Error en la descarga" })
    ∧ (pd.status = "started" →
      pp_hook pd = some
        { percent := 97, status := "processing",
          message :=
            if substrOf "ExtractAudio" pd.postprocessor then "Extrayendo audio…"
            else if substrOf "Metadata" pd.postprocessor then "Añadiendo metadatos…"
            else "Procesando…" })
    ∧ (pd.status = "finished" →
      pp_hook pd = some
        { percent := 99, status := "processing", message := "Finalizando…" }) := by
  refine ⟨?_, ?_, ?_, ?_, ?_⟩
  · intro h
    refine ⟨by simp [progress_hook, h], ?_, ?_⟩
    · intro ht; simp [hookPercent, ht]
    · intro ht; simp [hookPercent, ht]
  · intro h; simp [progress_hook, h]
  · intro h; simp [progress_hook, h]
  · intro h; simp [pp_hook, h]
  · intro h; simp [pp_hook, h]

/-- Witness for C8: a concrete "finished" engine event yields the fixed
95%-processing event. -/
theorem C8_witness :
    progress_hook { status := "finished" } =
      some { percent := 95, status := "processing", message := "Procesando archivo…" } :=
  (C8_hook_event_mapping { status := "finished" } { status := "" }).2.1 rfl

/-- C5: the Audiomack streaming-URL scan returns the request URL of the
first log entry (in list order) that is a `Network.requestWillBeSent`
message whose request URL contains `music.audiomack.com`; it returns none
when no entry matches, in which case `AudiomackDownloader.download` fails
with the explicit no-streaming-URL error. -/
theorem C5_streaming_scan_first_match (logs : List LogEntry) (env : AmEnv)
    (config : DownloadConfig) :
    (∀ i (h : i < logs.length), isStreamEntry (logs.get ⟨i, h⟩) = true →
      (∀ j (hj : j < i), isStreamEntry (logs.get ⟨j, Nat.lt_trans hj h⟩) = false) →
      scan_streaming_url logs = some (logs.get ⟨i, h⟩).requestUrl)
    ∧ ((∀ e ∈ logs, isStreamEntry e = false) → scan_streaming_url logs = none)
    ∧ ((∀ e ∈ env.logs, isStreamEntry e = false) →
      (audiomack_download env config).result =
        Except.error "No se pudo obtener la URL de streaming.") := by
  have hnone : ∀ (ls : List LogEntry), (∀ e ∈ ls, isStreamEntry e = false) →
      scan_streaming_url ls = none := by
    intro ls h
    unfold scan_streaming_url
    rw [List.find?_eq_none.mpr (by simpa using h)]
    rfl
  refine ⟨?_, hnone logs, ?_⟩
  · intro i h hp hfirst
    unfold scan_streaming_url
    rw [find?_first isStreamEntry logs i h hp hfirst]
    rfl
  · intro h
    unfold audiomack_download
    rw [hnone env.logs h]

/-- Witness for C5: with two captured entries both bearing request URLs, the
first streaming-host match wins. -/
theorem C5_witness :
    scan_streaming_url
        [{ method := "Network.requestWillBeSent",
           requestUrl := "https://music.audiomack.com/stream/track.m4a" },
         { method := "Network.requestWillBeSent",
           requestUrl := "https://music.audiomack.com/other.m4a" }] =
      some "https://music.audiomack.com/stream/track.m4a" :=
  (C5_streaming_scan_first_match
      [{ method := "Network.requestWillBeSent",
         requestUrl := "https://music.audiomack.com/stream/track.m4a" },
       { method := "Network.requestWillBeSent",
         requestUrl := "https://music.audiomack.com/other.m4a" }]
      { logs := [], metadata := { title := "", artist := "", id := "" },
        contentLength := 0, chunks := [], hasFFmpeg := false, mp3Exists := false }
      { url := "", output_dir := "" }).1 0 (by decide) (by decide)
    (fun j hj => absurd hj (Nat.not_lt_zero j))

/-- C7: on an AUDIO-format Audiomack run that downloaded an m4a container
with the transcoding tool available, the mp3 transcode is attempted (the
fixed 96%-conversion event is emitted); when the expected mp3 output exists
afterwards the m4a is removed and the result's filepath is the mp3 path,
otherwise nothing is removed and the original m4a path is returned — and in
both branches the run returns a result dict rather than raising. -/
theorem C7_transcode_fails_open (env : AmEnv) (config : DownloadConfig) (surl : String)
    (hscan : scan_streaming_url env.logs = some surl)
    (hfmt : config.output_format = OutputFormat.AUDIO)
    (hext : am_ext surl = "m4a")
    (hff : env.hasFFmpeg = true) :
    ({ percent := 96, status := "processing",
        message := "Convirtiendo a MP3..." } : DownloadProgress) ∈
      (audiomack_download env config).events
    ∧ (env.mp3Exists = true →
      (audiomack_download env config).removed = [am_dest env config surl] ∧
      (audiomack_download env config).result = Except.ok
        { title := am_title env, artist := am_artist env, id := env.metadata.id,
          filepath := am_mp3_path env config surl })
    ∧ (env.mp3Exists = false →
      (audiomack_download env config).removed = [] ∧
      (audiomack_download env config).result = Except.ok
        { title := am_title env, artist := am_artist env, id := env.metadata.id,
          filepath := am_dest env config surl }) := by
  unfold audiomack_download
  rw [hscan]
  simp only []
  rw [if_pos ⟨hfmt, hext, hff⟩]
  cases hmp3 : env.mp3Exists <;> simp [hmp3]

/-- Witness for C7: a concrete m4a AUDIO run with the tool available and a
missing mp3 output keeps and returns the original m4a file. -/
theorem C7_witness :
    (audiomack_download
        { logs := [{ method := "Network.requestWillBeSent",
                     requestUrl := "https://music.audiomack.com/t.m4a" }],
          metadata := { title := "T", artist := "A", id := "t" },
          contentLength := 0, chunks := [], hasFFmpeg := true, mp3Exists := false }
        { url := "https://audiomack.com/a/song/t", output_dir := "out",
          output_format := OutputFormat.AUDIO }).removed = [] :=
  ((C7_transcode_fails_open
      { logs := [{ method := "Network.requestWillBeSent",
                   requestUrl := "https://music.audiomack.com/t.m4a" }],
        metadata := { title := "T", artist := "A", id := "t" },
        contentLength := 0, chunks := [], hasFFmpeg := true, mp3Exists := false }
      { url := "https://audiomack.com/a/song/t", output_dir := "out",
        output_format := OutputFormat.AUDIO }
      "https://music.audiomack.com/t.m4a" (by decide) rfl (by decide) rfl).2.2 rfl).1

/-- C10: the Audiomack path never reads `cookies_file` or `ffmpeg_path`
from the config: two configs equal in URL, output directory and output
format produce identical outcomes (same event sequence, same removals, same
result) under any environment. -/
theorem C10_cookies_ffmpeg_noninterference (env : AmEnv) (c1 c2 : DownloadConfig)
    (hurl : c1.url = c2.url) (hdir : c1.output_dir = c2.output_dir)
    (hfmt : c1.output_format = c2.output_format) :
    audiomack_download env c1 = audiomack_download env c2 := by
  obtain ⟨u1, d1, f1, k1, p1⟩ := c1
  obtain ⟨u2, d2, f2, k2, p2⟩ := c2
  simp only at hurl hdir hfmt
  subst hurl; subst hdir; subst hfmt
  rfl

/-- Witness for C10: changing only the cookie file and FFmpeg path leaves a
concrete Audiomack run's outcome unchanged. -/
theorem C10_witness :
    audiomack_download
        { logs := [], metadata := { title := "T", artist := "A", id := "t" },
          contentLength := 0, chunks := [], hasFFmpeg := true, mp3Exists := true }
        { url := "https://audiomack.com/a/song/t", output_dir := "out",
          output_format := OutputFormat.AUDIO, cookies_file := some "c.txt",
          ffmpeg_path := some "/usr/bin/ffmpeg" } =
      audiomack_download
        { logs := [], metadata := { title := "T", artist := "A", id := "t" },
          contentLength := 0, chunks := [], hasFFmpeg := true, mp3Exists := true }
        { url := "https://audiomack.com/a/song/t", output_dir := "out",
          output_format := OutputFormat.AUDIO } :=
  C10_cookies_ffmpeg_noninterference
    { logs := [], metadata := { title := "T", artist := "A", id := "t" },
      contentLength := 0, chunks := [], hasFFmpeg := true, mp3Exists := true }
    { url := "https://audiomack.com/a/song/t", output_dir := "out",
      output_format := OutputFormat.AUDIO, cookies_file := some "c.txt",
      ffmpeg_path := some "/usr/bin/ffmpeg" }
    { url := "https://audiomack.com/a/song/t", output_dir := "out",
      output_format := OutputFormat.AUDIO } rfl rfl rfl

/-- C9 counterexample: the progress hook, fed an engine event whose
downloaded byte count (2) exceeds the reported total (1), emits a progress
event with percent 200 — outside the claimed 0–100 range. -/
theorem C9_counterexample :
    (progress_hook { status := "downloading", total_bytes := some 1,
                     downloaded_bytes := some 2 }).map DownloadProgress.percent = some 200
    ∧ ¬((200 : ℚ) ≤ 100) := by
  constructor
  · simp [progress_hook, hookPercent, hookTotal, hookDownloaded, orFalsy]
    norm_num
  · norm_num

/-- C9 (amended): every event the engine progress hook emits has a status
from the fixed set, and its percent lies in 0–100 provided the downloaded
byte count does not exceed the effective total; every postprocessor-hook
event lies in range unconditionally; and the Audiomack HTTP-loop event lies
in range provided the bytes written do not exceed the declared content
length. -/
theorem C9_amended_percent_status_bounds :
    (∀ d p, progress_hook d = some p → hookDownloaded d ≤ hookTotal d →
      0 ≤ p.percent ∧ p.percent ≤ 100 ∧ validStatus p.status = true)
    ∧ (∀ pd p, pp_hook pd = some p →
      0 ≤ p.percent ∧ p.percent ≤ 100 ∧ validStatus p.status = true)
    ∧ (∀ dl t, dl ≤ t →
      0 ≤ (amLoopProgress dl t).percent ∧ (amLoopProgress dl t).percent ≤ 100 ∧
      validStatus (amLoopProgress dl t).status = true) := by
  refine ⟨?_, ?_, ?_⟩
  · intro d p hp hle
    unfold progress_hook at hp
    split_ifs at hp with h1 h2 h3
    · obtain rfl := Option.some.inj hp
      refine ⟨?_, ?_, rfl⟩
      · show 0 ≤ hookPercent d
        unfold hookPercent
        split_ifs with ht
        · exact div_nonneg (by positivity) (by positivity)
        · norm_num
      · show hookPercent d ≤ 100
        unfold hookPercent
        split_ifs with ht
        · have ht' : (0 : ℚ) < (hookTotal d : ℚ) := by exact_mod_cast ht
          rw [div_le_iff₀ ht']
          have hc : (hookDownloaded d : ℚ) ≤ (hookTotal d : ℚ) := by exact_mod_cast hle
          nlinarith
        · norm_num
    · obtain rfl := Option.some.inj hp
      exact ⟨by norm_num, by norm_num, rfl⟩
    · obtain rfl := Option.some.inj hp
      exact ⟨by norm_num, by norm_num, rfl⟩
  · intro pd p hp
    unfold pp_hook at hp
    split_ifs at hp
    all_goals obtain rfl := Option.some.inj hp
    all_goals exact ⟨by norm_num, by norm_num, rfl⟩
  · intro dl t hle
    refine ⟨?_, ?_, rfl⟩
    · show (0 : ℚ) ≤ 60 + ((dl : ℚ) / (t : ℚ)) * 35
      rcases Nat.eq_zero_or_pos t with ht | ht
      · subst ht
        have h0 : dl = 0 := Nat.le_zero.mp hle
        subst h0
        norm_num
      · have h0 : (0 : ℚ) < (t : ℚ) := by exact_mod_cast ht
        have hd0 : 0 ≤ (dl : ℚ) / (t : ℚ) := div_nonneg (by positivity) (le_of_lt h0)
        nlinarith
    · show 60 + ((dl : ℚ) / (t : ℚ)) * 35 ≤ 100
      rcases Nat.eq_zero_or_pos t with ht | ht
      · subst ht
        have h0 : dl = 0 := Nat.le_zero.mp hle
        subst h0
        norm_num
      · have h0 : (0 : ℚ) < (t : ℚ) := by exact_mod_cast ht
        have hd1 : (dl : ℚ) / (t : ℚ) ≤ 1 := by
          rw [div_le_one h0]
          exact_mod_cast hle
        nlinarith

/-- Witness for C9 (amended): a concrete in-range Audiomack loop event. -/
theorem C9_witness :
    0 ≤ (amLoopProgress 1 2).percent ∧ (amLoopProgress 1 2).percent ≤ 100 ∧
      validStatus (amLoopProgress 1 2).status = true :=
  C9_amended_percent_status_bounds.2.2 1 2 (by decide)

/-- Helper: the head surviving `dropWhile p` fails `p`. -/
theorem dropWhile_head_false {α : Type} (p : α → Bool) :
    ∀ (l : List α) {c : α}, (l.dropWhile p).head? = some c → p c = false := by
  intro l
  induction l with
  | nil => intro c h; simp [List.dropWhile] at h
  | cons a t ih =>
    intro c h
    by_cases ha : p a = true
    · rw [List.dropWhile_cons_of_pos ha] at h
      exact ih h
    · rw [List.dropWhile_cons_of_neg ha] at h
      obtain rfl : a = c := by simpa using h
      simpa using ha

/-- Helper: `dropWhile p` is the identity when the head already fails `p`. -/
theorem dropWhile_id_of_head {α : Type} (p : α → Bool) (l : List α)
    (h : ∀ c, l.head? = some c → p c = false) : l.dropWhile p = l := by
  cases l with
  | nil => rfl
  | cons a t => exact List.dropWhile_cons_of_neg (by simp [h a rfl])

/-- Helper: every character the whitespace collapser outputs is either the
replacement space or a non-whitespace input character. -/
theorem collapseWsAux_mem :
    ∀ (l : List Char) (b : Bool), ∀ c ∈ collapseWsAux b l,
      c = ' ' ∨ (c ∈ l ∧ pyWs c = false) := by
  intro l
  induction l with
  | nil => intro b c hc; simp [collapseWsAux] at hc
  | cons a t ih =>
    intro b c hc
    by_cases ha : pyWs a = true
    · cases b with
      | false =>
        simp only [collapseWsAux, ha, if_true] at hc
        rcases List.mem_cons.mp hc with rfl | hmem
        · exact Or.inl rfl
        · rcases ih true c hmem with h | ⟨hm, hw⟩
          · exact Or.inl h
          · exact Or.inr ⟨List.mem_cons_of_mem a hm, hw⟩
      | true =>
        simp only [collapseWsAux, ha, if_true] at hc
        rcases ih true c hc with h | ⟨hm, hw⟩
        · exact Or.inl h
        · exact Or.inr ⟨List.mem_cons_of_mem a hm, hw⟩
    · simp only [collapseWsAux, ha, if_false] at hc
      rcases List.mem_cons.mp hc with rfl | hmem
      · exact Or.inr ⟨List.mem_cons_self _ _, by simpa using ha⟩
      · rcases ih false c hmem with h | ⟨hm, hw⟩
        · exact Or.inl h
        · exact Or.inr ⟨List.mem_cons_of_mem a hm, hw⟩

/-- Helper: inside a whitespace run (flag set) the collapser never emits a
whitespace head. -/
theorem collapseWsAux_true_head :
    ∀ (l : List Char) {c : Char}, (collapseWsAux true l).head? = some c → pyWs c = false := by
  intro l
  induction l with
  | nil => intro c h; simp [collapseWsAux] at h
  | cons a t ih =>
    intro c h
    by_cases ha : pyWs a = true
    · simp only [collapseWsAux, ha, if_true] at h
      exact ih h
    · simp only [collapseWsAux, ha, if_false] at h
      obtain rfl : a = c := by simpa using h
      simpa using ha

/-- Helper: the collapser never emits two adjacent whitespace characters. -/
theorem collapseWsAux_chain :
    ∀ (l : List Char) (b : Bool), List.Chain' noWsPair (collapseWsAux b l) := by
  intro l
  induction l with
  | nil => intro b; simp [collapseWsAux]
  | cons a t ih =>
    intro b
    by_cases ha : pyWs a = true
    · cases b with
      | false =>
        simp only [collapseWsAux, ha, if_true]
        refine List.chain'_cons'.mpr ⟨?_, ih true⟩
        intro y hy
        have hw : pyWs y = false := collapseWsAux_true_head t (Option.mem_def.mp hy)
        exact fun hpair => by simp [hw] at hpair
      | true =>
        simp only [collapseWsAux, ha, if_true]
        exact ih true
    · simp only [collapseWsAux, ha, if_false]
      refine List.chain'_cons'.mpr ⟨?_, ih false⟩
      intro y hy
      exact fun hpair => ha hpair.1

/-- Helper: when the head is not whitespace, the run flag is irrelevant. -/
theorem collapseWsAux_true_eq_false (t : List Char)
    (h : ∀ c, t.head? = some c → pyWs c = false) :
    collapseWsAux true t = collapseWsAux false t := by
  cases t with
  | nil => rfl
  | cons a t' =>
    have ha := h a rfl
    simp [collapseWsAux, ha]

/-- Helper: the collapser fixes lists whose whitespace is all single spaces
with no two adjacent. -/
theorem collapseWs_fix :
    ∀ (l : List Char), (∀ c ∈ l, pyWs c = true → c = ' ') → List.Chain' noWsPair l →
      collapseWs l = l := by
  intro l
  induction l with
  | nil => intro _ _; rfl
  | cons a t ih =>
    intro hall hchain
    obtain ⟨hhead, htail⟩ := List.chain'_cons'.mp hchain
    by_cases ha : pyWs a = true
    · have ha' : a = ' ' := hall a (List.mem_cons_self a t) ha
      have hth : ∀ c, t.head? = some c → pyWs c = false := by
        intro c hc
        have hp := hhead c (Option.mem_def.mpr hc)
        by_contra hcc
        exact hp ⟨ha, by simpa using hcc⟩
      calc collapseWs (a :: t)
          = ' ' :: collapseWsAux true t := by simp [collapseWs, collapseWsAux, ha]
        _ = ' ' :: collapseWsAux false t := by rw [collapseWsAux_true_eq_false t hth]
        _ = ' ' :: t := by
            rw [show collapseWsAux false t = collapseWs t from rfl,
              ih (fun c hc hw => hall c (List.mem_cons_of_mem a hc) hw) htail]
        _ = a :: t := by rw [ha']
    · have hs : collapseWs (a :: t) = a :: collapseWs t := by
        simp [collapseWs, collapseWsAux, ha]
      rw [hs, ih (fun c hc hw => hall c (List.mem_cons_of_mem a hc) hw) htail]

/-- Helper: the stripped list is a leading block of the
leading-whitespace-dropped list. -/
theorem stripWs_front (l : List Char) :
    ∃ u, stripWs l ++ u = l.dropWhile (fun c => pyWs c) := by
  obtain ⟨t, ht⟩ :=
    List.dropWhile_suffix (l := (l.dropWhile (fun c => pyWs c)).reverse) (fun c => pyWs c)
  refine ⟨t.reverse, ?_⟩
  have h2 := congrArg List.reverse ht
  rw [List.reverse_append, List.reverse_reverse] at h2
  exact h2

/-- Helper: stripping only removes characters. -/
theorem stripWs_subset (l : List Char) : ∀ c ∈ stripWs l, c ∈ l := by
  intro c hc
  obtain ⟨u, hu⟩ := stripWs_front l
  have h2 : c ∈ l.dropWhile (fun c => pyWs c) := by
    rw [← hu]
    exact List.mem_append_left u hc
  exact List.IsSuffix.subset (List.dropWhile_suffix _) h2

/-- Helper: the stripped list never starts with whitespace. -/
theorem stripWs_head_false (l : List Char) {c : Char}
    (hc : (stripWs l).head? = some c) : pyWs c = false := by
  obtain ⟨u, hu⟩ := stripWs_front l
  have h2 : (l.dropWhile (fun c => pyWs c)).head? = some c := by
    rw [← hu]
    cases hs : stripWs l with
    | nil => rw [hs] at hc; simp at hc
    | cons x xs =>
      rw [hs] at hc
      obtain rfl : x = c := by simpa using hc
      rfl
  exact dropWhile_head_false _ l h2

/-- Helper: the stripped list never ends with whitespace. -/
theorem stripWs_last_false (l : List Char) {c : Char}
    (hc : (stripWs l).getLast? = some c) : pyWs c = false := by
  unfold stripWs at hc
  rw [List.getLast?_reverse] at hc
  exact dropWhile_head_false _ _ hc

/-- Helper: stripping fixes lists with non-whitespace ends. -/
theorem stripWs_fix (l : List Char)
    (h1 : ∀ c, l.head? = some c → pyWs c = false)
    (h2 : ∀ c, l.getLast? = some c → pyWs c = false) : stripWs l = l := by
  unfold stripWs
  rw [dropWhile_id_of_head _ l h1,
    dropWhile_id_of_head _ l.reverse (fun c hc => h2 c (by rwa [List.head?_reverse] at hc)),
    List.reverse_reverse]

/-- Helper: stripping preserves the no-adjacent-whitespace invariant. -/
theorem stripWs_chain (l : List Char) (h : List.Chain' noWsPair l) :
    List.Chain' noWsPair (stripWs l) := by
  have hrev : ∀ (m : List Char), List.Chain' noWsPair m → List.Chain' noWsPair m.reverse := by
    intro m hm
    exact List.chain'_reverse.mpr (List.Chain'.imp (fun a b hab hp => hab ⟨hp.2, hp.1⟩) hm)
  have h1 : List.Chain' noWsPair (l.dropWhile (fun c => pyWs c)) :=
    List.Chain'.suffix h (List.dropWhile_suffix _)
  have h2 : List.Chain' noWsPair
      ((l.dropWhile (fun c => pyWs c)).reverse.dropWhile (fun c => pyWs c)) :=
    List.Chain'.suffix (hrev _ h1) (List.dropWhile_suffix _)
  exact hrev _ h2

/-- Helper: mapping a function that fixes every member is the identity. -/
theorem map_id_on {α : Type} (f : α → α) :
    ∀ (l : List α), (∀ c ∈ l, f c = c) → l.map f = l := by
  intro l
  induction l with
  | nil => intro _; rfl
  | cons a t ih =>
    intro h
    rw [List.map_cons, h a (List.mem_cons_self a t),
      ih (fun c hc => h c (List.mem_cons_of_mem a hc))]

/-- Helper: the line-break replacement never outputs a line break. -/
theorem nlToSpace_ne_nl (a : Char) : nlToSpace a ≠ '\n' ∧ nlToSpace a ≠ '\r' := by
  unfold nlToSpace
  split_ifs with h
  · exact ⟨by decide, by decide⟩
  · simp only [Bool.or_eq_true, beq_iff_eq] at h
    push_neg at h
    exact h

/-- Helper: the underscore replacement never outputs an illegal character. -/
theorem badToUnderscore_not_bad (x : Char) : isBadFileChar (badToUnderscore x) = false := by
  unfold badToUnderscore
  split_ifs with h
  · decide
  · simpa using h

/-- Helper: the underscore replacement preserves line-break-freedom. -/
theorem badToUnderscore_ne (x : Char) (hx : x ≠ '\n' ∧ x ≠ '\r') :
    badToUnderscore x ≠ '\n' ∧ badToUnderscore x ≠ '\r' := by
  unfold badToUnderscore
  split_ifs with h
  · exact ⟨by decide, by decide⟩
  · exact hx

/-- Helper: after the two character replacements no illegal character or
line break remains. -/
theorem mapped_chars (l : List Char) :
    ∀ c ∈ (l.map nlToSpace).map badToUnderscore,
      isBadFileChar c = false ∧ c ≠ '\n' ∧ c ≠ '\r' := by
  intro c hc
  rw [List.mem_map] at hc
  obtain ⟨x, hx, rfl⟩ := hc
  rw [List.mem_map] at hx
  obtain ⟨a, _, rfl⟩ := hx
  exact ⟨badToUnderscore_not_bad _, badToUnderscore_ne _ (nlToSpace_ne_nl a)⟩

/-- Helper: every character of a sanitized string is a single space or a
non-whitespace, legal, non-line-break character. -/
theorem cleanChars_chars (l : List Char) :
    ∀ c ∈ cleanChars l,
      (pyWs c = true → c = ' ') ∧ isBadFileChar c = false ∧ c ≠ '\n' ∧ c ≠ '\r' := by
  intro c hc
  unfold cleanChars at hc
  have hc2 : c ∈ collapseWs ((l.map nlToSpace).map badToUnderscore) := stripWs_subset _ c hc
  rcases collapseWsAux_mem _ false c hc2 with rfl | ⟨hm, hw⟩
  · exact ⟨fun _ => rfl, by decide, by decide, by decide⟩
  · obtain ⟨hb, hn⟩ := mapped_chars l c hm
    exact ⟨fun h => absurd h (by simp [hw]), hb, hn⟩

/-- Helper: the sanitizer is idempotent on code-point lists. -/
theorem cleanChars_idem (l : List Char) : cleanChars (cleanChars l) = cleanChars l := by
  have hchars := cleanChars_chars l
  have h1 : (cleanChars l).map nlToSpace = cleanChars l :=
    map_id_on _ _ (fun c hc => by
      obtain ⟨_, _, hn, hr⟩ := hchars c hc
      unfold nlToSpace
      rw [if_neg (by simp [hn, hr])])
  have h2 : (cleanChars l).map badToUnderscore = cleanChars l :=
    map_id_on _ _ (fun c hc => by
      obtain ⟨_, hb, _, _⟩ := hchars c hc
      unfold badToUnderscore
      rw [if_neg (by simp [hb])])
  have hch : List.Chain' noWsPair (cleanChars l) := by
    unfold cleanChars
    exact stripWs_chain _ (collapseWsAux_chain _ false)
  have h3 : collapseWs (cleanChars l) = cleanChars l :=
    collapseWs_fix _ (fun c hc hw => (hchars c hc).1 hw) hch
  have h4 : stripWs (cleanChars l) = cleanChars l := by
    apply stripWs_fix
    · intro c hc
      unfold cleanChars at hc
      exact stripWs_head_false _ hc
    · intro c hc
      unfold cleanChars at hc
      exact stripWs_last_false _ hc
  calc cleanChars (cleanChars l)
      = stripWs (collapseWs (((cleanChars l).map nlToSpace).map badToUnderscore)) := rfl
    _ = stripWs (collapseWs (cleanChars l)) := by rw [h1, h2]
    _ = stripWs (cleanChars l) := by rw [h3]
    _ = cleanChars l := h4

/-- C6: the Audiomack `clean` helper is idempotent; its output contains
none of the characters `<>:"/\|?*` and no line breaks; and after the
documented caps the stored title never exceeds 100 code points and the
stored artist never exceeds 50. -/
theorem C6_sanitizer_idempotent_safe_capped (s : String) :
    cleanStr (cleanStr s) = cleanStr s
    ∧ (∀ c ∈ (cleanStr s).data, isBadFileChar c = false ∧ c ≠ '\n' ∧ c ≠ '\r')
    ∧ (∀ env : AmEnv, (am_title env).length ≤ 100 ∧ (am_artist env).length ≤ 50) := by
  refine ⟨?_, ?_, ?_⟩
  · exact congrArg String.mk (cleanChars_idem s.data)
  · intro c hc
    exact (cleanChars_chars s.data c hc).2
  · intro env
    constructor
    · show ((cleanStr env.metadata.title).data.take 100).length ≤ 100
      exact List.length_take_le 100 _
    · show ((cleanStr env.metadata.artist).data.take 50).length ≤ 50
      exact List.length_take_le 50 _

/-- Witness for C6: a concrete string with illegal characters, repeated
whitespace and a line break sanitizes to a fixed point, and a character of
the sanitized output is legal. -/
theorem C6_witness :
    cleanStr (cleanStr "  a<b\nc  ") = cleanStr "  a<b\nc  " ∧
    (isBadFileChar 'a' = false ∧ 'a' ≠ '\n' ∧ 'a' ≠ '\r') :=
  ⟨(C6_sanitizer_idempotent_safe_capped "  a<b\nc  ").1,
    (C6_sanitizer_idempotent_safe_capped "  a<b\nc  ").2.1 'a' (by decide)⟩

end UMD
